import Mathlib

/-!
Shallow embedding of the `waked` wake-triggered process supervisor
(`main.go`): the wake dispatcher `execCtl.onEvent`, the retry loop
`execRetry`, the single attempt `execOnce`, the line-capturing
`exeLogger`, and the lock-state oracle `checkIfLocked`.

External effects (directory listings, child process spawns, the two
lock-state helper commands, context cancellation) are supplied by
explicit environment records, and each operation additionally returns
the ordered trace of observable actions it performs, so that temporal
claims about the code become statements about those traces.
-/

namespace Waked

/-! ### Byte/string helpers mirroring the Go standard library -/

/-- `listStartsWith hay needle` is true when `needle` is a prefix of `hay`
(the inner step of `bytes.Contains`). -/
def listStartsWith : List Char → List Char → Bool
  | _, [] => true
  | [], _ :: _ => false
  | a :: as, b :: bs => a == b && listStartsWith as bs

/-- `listContains hay needle`: does `needle` occur as a contiguous substring
of `hay`?  Mirrors `bytes.Contains` / `strings.Contains`. -/
def listContains : List Char → List Char → Bool
  | [], needle => needle.isEmpty
  | hay@(_ :: t), needle => listStartsWith hay needle || listContains t needle

/-- Whitespace recognizer used by `bytes.TrimSpace` (ASCII portion). -/
def isSpaceChar (c : Char) : Bool :=
  c == ' ' || c == '\t' || c == '\n' || c == '\x0b' || c == '\x0c' || c == '\r'

/-- `bytes.TrimSpace`: drop leading and trailing whitespace. -/
def trimSpace (s : List Char) : List Char :=
  ((s.dropWhile isSpaceChar).reverse.dropWhile isSpaceChar).reverse

/-- The marker substring from `main.go`: `needsUnlockStr = "-on-unlock"`. -/
def needsUnlockStr : String := "-on-unlock"

/-- The marker key from `checkIfLocked`: `coreGraphicsParam`. -/
def coreGraphicsParam : String := "CGSSessionScreenIsLocked"

/-! ### Lock-State Oracle: `checkIfLocked` -/

/-- Results of the two external helper commands that `checkIfLocked`
invokes: `CombinedOutput` either fails with an error or yields output. -/
structure LockEnv where
  ioregResult : Except String String
  plutilResult : Except String String

/-- `checkIfLocked` from `main.go`, over a `LockEnv` supplying the two
helper outcomes.  Returns the Go pair `(bool, error)` (with `error` as
`Option String`) together with the list of helper commands invoked:

* `ioreg` fails → `(false, some err)`, only `ioreg` ran;
* output without the `CGSSessionScreenIsLocked` marker → `(false, none)`,
  only `ioreg` ran (the `plutil` helper is never started);
* marker present, `plutil` fails → `(false, some err)`;
* both succeed → `(bytes.Equal "true" (TrimSpace plutilOutput), none)`. -/
def checkIfLocked (env : LockEnv) : (Bool × Option String) × List String :=
  match env.ioregResult with
  | .error e => ((false, some ("ioreg failed - " ++ e)), ["ioreg"])
  | .ok ioregOutput =>
    if listContains ioregOutput.data coreGraphicsParam.data then
      match env.plutilResult with
      | .error e => ((false, some ("plutil failed - " ++ e)), ["ioreg", "plutil"])
      | .ok plutilOutput =>
        ((trimSpace plutilOutput.data == "true".data, none), ["ioreg", "plutil"])
    else
      ((false, none), ["ioreg"])

example : (checkIfLocked ⟨.ok "no marker here", .ok "true"⟩).1 = (false, none) := by decide
example :
    (checkIfLocked ⟨.ok "x CGSSessionScreenIsLocked y", .ok " true\n"⟩).1 = (true, none) := by
  decide
example :
    (checkIfLocked ⟨.ok "x CGSSessionScreenIsLocked y", .ok "false"⟩).1 = (false, none) := by
  decide
example : (checkIfLocked ⟨.error "boom", .ok "true"⟩).1.1 = false := by decide

/-! ### `filepath.Base` -/

/-- Strip trailing path separators (first loop of `filepath.Base`). -/
def dropTrailingSep (p : List Char) : List Char :=
  (p.reverse.dropWhile (· == '/')).reverse

/-- The component after the last `/` (the `strings.LastIndex` step of
`filepath.Base`); the whole string when no separator occurs. -/
def afterLastSep (p : List Char) : List Char :=
  (p.reverse.takeWhile (· != '/')).reverse

/-- `filepath.Base` for Unix paths, as in the Go standard library:
empty path gives `"."`, an all-separator path gives `"/"`, otherwise the
last path component with trailing separators removed. -/
def filepathBase (p : List Char) : List Char :=
  if p.isEmpty then ['.']
  else
    let q := dropTrailingSep p
    if q.isEmpty then ['/'] else afterLastSep q

example : filepathBase "/usr/local/etc/waked/foo-on-unlock".data = "foo-on-unlock".data := by
  decide

/-! ### One attempt: `execOnce` -/

/-- Environment for one `execOnce` call: the lock-oracle helper results
and the outcome of `exe.Run()` (`none` = exit status zero, `some msg` =
spawn failure / non-zero exit / timeout). -/
structure ExecEnv where
  lockEnv : LockEnv
  runResult : Option String

/-- Observable actions of `execOnce`, in program order. -/
inductive ExecEv
  | oracleQueried
  | warnLogged (msg : String)
  | spawned (path : String)
deriving DecidableEq, Repr

/-- Result of `execOnce` (Go's returned `error`). -/
inductive ExecOnceResult
  | screenLocked
  | execFailed (msg : String)
  | ok
deriving DecidableEq, Repr

/-- `execOnce` from `main.go`: when the executable's base name contains
`needsUnlockStr` it first queries `checkIfLocked`; a `locked` verdict
returns `screenLockedErr` before any spawn, an oracle error only logs a
warning.  Otherwise it spawns the child (with the 10-minute timeout
context and the two `exeLogger` captures) and wraps a failed `Run` in
`exec failed - `. -/
def execOnce (env : ExecEnv) (exePath : String) : ExecOnceResult × List ExecEv :=
  if listContains (filepathBase exePath.data) needsUnlockStr.data then
    let lockPair := (checkIfLocked env.lockEnv).1
    if lockPair.1 then
      (.screenLocked, [.oracleQueried])
    else
      let warnEvs : List ExecEv :=
        match lockPair.2 with
        | some e => [.warnLogged ("failed to determine if screen is locked - " ++ e)]
        | none => []
      match env.runResult with
      | some e => (.execFailed ("exec failed - " ++ e), .oracleQueried :: warnEvs ++ [.spawned exePath])
      | none => (.ok, .oracleQueried :: warnEvs ++ [.spawned exePath])
  else
    match env.runResult with
    | some e => (.execFailed ("exec failed - " ++ e), [.spawned exePath])
    | none => (.ok, [.spawned exePath])

example :
    (execOnce ⟨⟨.ok "CGSSessionScreenIsLocked", .ok "true"⟩, none⟩ "/d/a-on-unlock").1
      = .screenLocked := by decide
example :
    (execOnce ⟨⟨.ok "CGSSessionScreenIsLocked", .ok "true"⟩, none⟩ "/d/a").2
      = [.spawned "/d/a"] := by decide

/-! ### The retry loop: `execRetry` -/

/-- Per-iteration environment of `execRetry`: the `os.Stat` outcome, the
`execOnce` outcome, and whether the generation context was observed as
cancelled at each of the two `select` statements. -/
structure AttemptEnv where
  statErr : Option String
  execResult : Option ExecOnceResult
  ctxDoneAfterExec : Bool
  ctxDoneDuringWait : Bool

/-- Observable actions of `execRetry`, in program order.  `retryLog`
carries the backoff duration (in seconds) from the
`exec failed, will retry in` log line; `backoffWaited` records that the
`time.After` arm of the second `select` fired. -/
inductive RunEv
  | statOk
  | statFail (e : String)
  | execAttempt (r : Option ExecOnceResult)
  | cancelledNote
  | retryLog (secs : Nat)
  | backoffWaited
deriving DecidableEq, Repr

/-- Terminal outcomes of `execRetry` (`nil`, the stat error, or
`ctx.Err()`). -/
inductive RunResult
  | success
  | statFailed (e : String)
  | cancelled
deriving DecidableEq, Repr

/-- The backoff computed after a failed attempt: 10 seconds, shortened
to 5 when the failure was `screenLockedErr`. -/
def waitFor (err : ExecOnceResult) : Nat :=
  if err = .screenLocked then 5 else 10

/-- `execRetry` from `main.go`, with `fuel` bounding the number of loop
iterations the model unfolds (`none` = still looping after `fuel`
iterations).  Each iteration: stat the path (a failure returns that
error at once); run `execOnce` (a `nil` error returns `nil`); check
`ctx.Done()` non-blockingly; log and wait out the backoff under
`ctx.Done()`; loop.  `n` is the index of the current attempt. -/
def execRetryTrace (env : Nat → AttemptEnv) : Nat → Nat → Option RunResult × List RunEv
  | _, 0 => (none, [])
  | n, fuel + 1 =>
    match (env n).statErr with
    | some e => (some (.statFailed e), [.statFail e])
    | none =>
      match (env n).execResult with
      | none => (some .success, [.statOk, .execAttempt none])
      | some err =>
        if (env n).ctxDoneAfterExec then
          (some .cancelled, [.statOk, .execAttempt (some err), .cancelledNote])
        else if (env n).ctxDoneDuringWait then
          (some .cancelled,
           [.statOk, .execAttempt (some err), .retryLog (waitFor err), .cancelledNote])
        else
          let rest := execRetryTrace env (n + 1) fuel
          (rest.1,
           .statOk :: .execAttempt (some err) :: .retryLog (waitFor err) ::
             .backoffWaited :: rest.2)

example :
    execRetryTrace (fun _ => ⟨none, none, false, false⟩) 0 3
      = (some .success, [.statOk, .execAttempt none]) := by decide
example :
    execRetryTrace
      (fun k => if k = 0 then ⟨none, some (.execFailed "x"), false, false⟩
                else ⟨some "gone", none, false, false⟩) 0 3
      = (some (.statFailed "gone"),
         [.statOk, .execAttempt (some (.execFailed "x")), .retryLog 10, .backoffWaited,
          .statFail "gone"]) := by decide

/-! ### Wake Dispatcher: `execCtl.onEvent` -/

/-- One entry of the `os.ReadDir` listing: a name and Go's
`DirEntry.IsDir` classification. -/
structure DirEntry where
  name : String
  isDir : Bool
deriving DecidableEq, Repr

/-- The mutable state of `execCtl` relevant to `onEvent`: the
executables directory, the previous generation's cancel function
(`stopChildrenFn`, tagged by its generation number, `none` before the
first successful event), and the number of the next generation to
create. -/
structure CtlState where
  exesDir : String
  stopChildrenFn : Option Nat
  nextGen : Nat
deriving DecidableEq, Repr

/-- `filepath.Join` of the directory and an entry name (the claims never
depend on the `Clean` normalization step, so the separator splice
suffices). -/
def filepathJoin (dir name : String) : String := dir ++ "/" ++ name

/-- Observable actions of `onEvent`, in program order, while the mutex
is held.  `readDirDone` marks completion of the `os.ReadDir` call with
its result; `cancelPrev` is the call to the previous generation's
`stopChildrenFn`; `newGen g` is `context.WithCancelCause` creating
generation `g`; `launchRun g p` is the `go execRetry(ctx, p)` statement
for path `p` under generation `g`. -/
inductive DispatchEv
  | readDirOkDone (entries : List DirEntry)
  | readDirErrDone (e : String)
  | logMsg (msg : String)
  | cancelPrev
  | newGen (g : Nat)
  | launchRun (g : Nat) (path : String)
deriving DecidableEq, Repr

/-- `execCtl.onEvent` from `main.go` as a state transformer plus trace.
Under the mutex: `os.ReadDir`; on error log and return with the state
untouched; otherwise call `stopChildrenFn` when non-nil, install the new
generation's cancel function, and launch one `execRetry` goroutine per
non-directory entry, in listing order. -/
def onEvent (st : CtlState) (listing : Except String (List DirEntry)) :
    CtlState × List DispatchEv :=
  match listing with
  | .error e =>
    (st, [.readDirErrDone e,
          .logMsg ("failed to read executables directory " ++ st.exesDir ++ " - " ++ e)])
  | .ok infos =>
    let cancelEvs : List DispatchEv :=
      match st.stopChildrenFn with
      | some _ => [.cancelPrev]
      | none => []
    let g := st.nextGen
    let launches : List DispatchEv :=
      (infos.filter (fun i => !i.isDir)).map
        (fun i => .launchRun g (filepathJoin st.exesDir i.name))
    ({ st with stopChildrenFn := some g, nextGen := g + 1 },
     .readDirOkDone infos :: cancelEvs ++ .newGen g :: launches)

example :
    onEvent ⟨"/d", some 0, 1⟩ (.ok [⟨"a", false⟩, ⟨"sub", true⟩, ⟨"b", false⟩])
      = (⟨"/d", some 1, 2⟩,
         [.readDirOkDone [⟨"a", false⟩, ⟨"sub", true⟩, ⟨"b", false⟩],
          .cancelPrev, .newGen 1, .launchRun 1 "/d/a", .launchRun 1 "/d/b"]) := by decide

/-! ### Output Capture: `exeLogger` -/

/-- `dropCR` from `bufio`: drop one terminal carriage return. -/
def dropCR (l : List Char) : List Char :=
  if l.getLast? = some '\r' then l.dropLast else l

/-- `bufio.MaxScanTokenSize`, the default maximum token size of a
`bufio.Scanner` (64 KiB): `exeLogger.loop` uses `bufio.NewScanner`
without calling `Buffer`, so its buffer never grows beyond this. -/
def maxScanTokenSize : Nat := 65536

/-- The reader loop of `exeLogger` as seen through `bufio.Scanner` with
the `ScanLines` split function, once the whole stream is known: `acc`
holds the (reversed) bytes of the line being assembled; a `'\n'` emits
the assembled token with `dropCR` applied; end of input (the scanner's
`atEOF` read, reached after `Close`) emits a final `dropCR`-ed token iff
bytes remain.  When `maxScanTokenSize` bytes accumulate without a
newline the scanner's buffer is full and cannot grow, so `Scan` fails
with `ErrTooLong`: the loop stops and nothing further is forwarded.
Returns the emitted tokens and whether the loop ended in `ErrTooLong`. -/
def scanLines (acc : List Char) : List Char → List (List Char) × Bool
  | [] =>
    if maxScanTokenSize ≤ acc.length then ([], true)
    else if acc.isEmpty then ([], false)
    else ([dropCR acc.reverse], false)
  | c :: rest =>
    if maxScanTokenSize ≤ acc.length then ([], true)
    else if c = '\n' then
      let r := scanLines [] rest
      (dropCR acc.reverse :: r.1, r.2)
    else scanLines (c :: acc) rest

/-- The full effect of one `exeLogger` capture instance on the log sink:
every token the scanner produces from the written byte stream is logged
once, tagged with the executable path (`log.Printf("[%s] %s", exePath,
scanner.Text())`); tokens cut off by the `ErrTooLong` exit of the reader
loop never reach the sink. -/
def exeLoggerOutput (exePath : String) (written : List Char) : List (String × List Char) :=
  (scanLines [] written).1.map (fun line => (exePath, line))

example :
    exeLoggerOutput "/d/a" "one\ntwo\r\ntail".data
      = [("/d/a", "one".data), ("/d/a", "two".data), ("/d/a", "tail".data)] := by decide
example : exeLoggerOutput "/d/a" "one\n".data = [("/d/a", "one".data)] := by decide

/-! ### Trace predicates used to state the temporal claims -/

/-- Is this dispatcher action the launch of an `execRetry` goroutine? -/
def isLaunch : DispatchEv → Bool
  | .launchRun _ _ => true
  | _ => false

/-- `cancelBeforeLaunches tr` holds when `tr` contains a `cancelPrev`
action and no goroutine launch occurs before the first one: the previous
generation is cancelled before any new run starts. -/
def cancelBeforeLaunches : List DispatchEv → Bool
  | [] => false
  | .cancelPrev :: _ => true
  | e :: rest => !isLaunch e && cancelBeforeLaunches rest

/-- `listingThenCancel tr` holds when the first observable action of
`tr` is the successful completion of the directory listing and, after
it, the previous generation's cancellation precedes every launch. -/
def listingThenCancel : List DispatchEv → Bool
  | .readDirOkDone _ :: rest => cancelBeforeLaunches rest
  | _ => false

/-- `attemptsGuarded tr` holds when every `execAttempt` in the retry
trace `tr` is immediately preceded by a successful `os.Stat` check. -/
def attemptsGuarded : List RunEv → Bool
  | [] => true
  | .statOk :: .execAttempt _ :: rest => attemptsGuarded rest
  | .execAttempt _ :: _ => false
  | _ :: rest => attemptsGuarded rest

/-- A child's byte stream consisting of the lines `ls`, each terminated
by a newline (the shape over which the capture claim is stated). -/
def encodeLines (ls : List (List Char)) : List Char :=
  (ls.map (fun l => l ++ ['\n'])).flatten

/-! ## Theorems -/

/-- C5: `checkIfLocked` returns `(false, nil)` without invoking `plutil`
whenever the `ioreg` output lacks the `CGSSessionScreenIsLocked` marker;
when the marker is present and both helpers succeed it returns
`(TrimSpace(plutilOutput) == "true", nil)`; when either helper fails it
returns `false` with a non-nil error. -/
theorem checkIfLocked_branches (env : LockEnv) :
    (∀ out, env.ioregResult = .ok out →
      listContains out.data coreGraphicsParam.data = false →
      checkIfLocked env = ((false, none), ["ioreg"])) ∧
    (∀ out pout, env.ioregResult = .ok out →
      listContains out.data coreGraphicsParam.data = true →
      env.plutilResult = .ok pout →
      checkIfLocked env = ((trimSpace pout.data == "true".data, none), ["ioreg", "plutil"])) ∧
    (∀ e, env.ioregResult = .error e →
      ∃ m, (checkIfLocked env).1 = (false, some m)) ∧
    (∀ out e, env.ioregResult = .ok out →
      listContains out.data coreGraphicsParam.data = true →
      env.plutilResult = .error e →
      ∃ m, (checkIfLocked env).1 = (false, some m)) := by
  obtain ⟨ir, pr⟩ := env
  refine ⟨?_, ?_, ?_, ?_⟩
  · rintro out rfl hmiss
    simp [checkIfLocked, hmiss]
  · rintro out pout rfl hhit rfl
    simp [checkIfLocked, hhit]
  · rintro e rfl
    simp [checkIfLocked]
  · rintro out e rfl hhit rfl
    simp [checkIfLocked, hhit]

/-- Witness for C5: the short-circuit branch at a concrete environment. -/
theorem checkIfLocked_branches_witness :
    checkIfLocked ⟨.ok "no marker here", .ok "whatever"⟩ = ((false, none), ["ioreg"]) :=
  (checkIfLocked_branches ⟨.ok "no marker here", .ok "whatever"⟩).1 "no marker here" rfl
    (by decide)

/-- C10: `checkIfLocked` never pairs `true` with a non-nil error; a
`true` verdict requires both helpers to have succeeded, the marker key
to be present, and the trimmed `plutil` output to equal `"true"`; and
`execOnce` yields `screenLockedErr` only under a `true` verdict. -/
theorem checkIfLocked_no_locked_error (env : LockEnv) :
    ((checkIfLocked env).1.2 ≠ none → (checkIfLocked env).1.1 = false) ∧
    ((checkIfLocked env).1.1 = true →
      (checkIfLocked env).1.2 = none ∧
      ∃ iout pout, env.ioregResult = .ok iout ∧ env.plutilResult = .ok pout ∧
        listContains iout.data coreGraphicsParam.data = true ∧
        trimSpace pout.data = "true".data) ∧
    (∀ eenv path, (execOnce eenv path).1 = .screenLocked →
      (checkIfLocked eenv.lockEnv).1.1 = true) := by
  refine ⟨?_, ?_, ?_⟩
  · intro _h
    obtain ⟨ir, pr⟩ := env
    cases ir with
    | error e => simp [checkIfLocked]
    | ok out =>
      by_cases hhit : listContains out.data coreGraphicsParam.data
      · cases pr with
        | error e => simp [checkIfLocked, hhit]
        | ok pout =>
          exact absurd (by simp [checkIfLocked, hhit]) _h
      · simp [checkIfLocked, hhit] at _h
  · intro htrue
    obtain ⟨ir, pr⟩ := env
    cases ir with
    | error e => simp [checkIfLocked] at htrue
    | ok out =>
      by_cases hhit : listContains out.data coreGraphicsParam.data
      · cases pr with
        | error e => simp [checkIfLocked, hhit] at htrue
        | ok pout =>
          have h2 : trimSpace pout.data = "true".data := by
            simpa [checkIfLocked, hhit] using htrue
          exact ⟨by simp [checkIfLocked, hhit], out, pout, rfl, rfl, hhit, h2⟩
      · simp [checkIfLocked, hhit] at htrue
  · intro eenv path hlocked
    unfold execOnce at hlocked
    by_cases hmark :
        listContains (filepathBase path.data) needsUnlockStr.data
    · simp [hmark] at hlocked
      by_cases hl : (checkIfLocked eenv.lockEnv).1.1
      · exact hl
      · simp [hl] at hlocked
        rcases hr : eenv.runResult with _ | e <;> simp [hr] at hlocked
    · simp [hmark] at hlocked
      rcases hr : eenv.runResult with _ | e <;> simp [hr] at hlocked

/-- Witness for C10: a failing `ioreg` yields a non-nil error and a
`false` verdict. -/
theorem checkIfLocked_no_locked_error_witness :
    (checkIfLocked ⟨.error "exec format error", .ok "y"⟩).1.1 = false :=
  (checkIfLocked_no_locked_error ⟨.error "exec format error", .ok "y"⟩).1 (by decide)

/-- C3: at any attempt, a `nil` return from `execOnce` (exit status
zero) makes `execRetry` return `nil` at once: the iteration's trace is
exactly one stat check and one attempt, and the loop is not re-entered
regardless of the remaining fuel. -/
theorem execRetry_success_stops (env : Nat → AttemptEnv) (n fuel : Nat)
    (hstat : (env n).statErr = none) (hexec : (env n).execResult = none) :
    execRetryTrace env n (fuel + 1) = (some .success, [.statOk, .execAttempt none]) := by
  simp [execRetryTrace, hstat, hexec]

/-- Witness for C3 at a concrete always-succeeding environment. -/
theorem execRetry_success_stops_witness :
    execRetryTrace (fun _ => ⟨none, none, false, false⟩) 0 8
      = (some .success, [.statOk, .execAttempt none]) :=
  execRetry_success_stops (fun _ => ⟨none, none, false, false⟩) 0 7 rfl rfl

/-- Every `execOnce` attempt recorded in an `execRetry` trace is
immediately preceded by a successful stat check of the executable. -/
theorem execRetry_attemptsGuarded (env : Nat → AttemptEnv) :
    ∀ fuel n, attemptsGuarded (execRetryTrace env n fuel).2 = true := by
  intro fuel
  induction fuel with
  | zero => intro n; simp [execRetryTrace, attemptsGuarded]
  | succ fuel ih =>
    intro n
    rcases hs : (env n).statErr with _ | e
    · rcases he : (env n).execResult with _ | err
      · simp [execRetryTrace, hs, he, attemptsGuarded]
      · rcases ha : (env n).ctxDoneAfterExec
        · rcases hw : (env n).ctxDoneDuringWait
          · simpa [execRetryTrace, hs, he, ha, hw, attemptsGuarded] using ih (n + 1)
          · simp [execRetryTrace, hs, he, ha, hw, attemptsGuarded]
        · simp [execRetryTrace, hs, he, ha, attemptsGuarded]
    · simp [execRetryTrace, hs, attemptsGuarded]

/-- C4: the path is stat-checked before every attempt
(`attemptsGuarded`), and at any attempt count a failing stat makes the
run stop immediately with that error: the whole remaining trace is the
single terminal `no longer stat'able` log line, with no further
invocation attempts. -/
theorem execRetry_stat_fail_stops (env : Nat → AttemptEnv) (n fuel : Nat) (e : String)
    (hstat : (env n).statErr = some e) :
    execRetryTrace env n (fuel + 1) = (some (.statFailed e), [.statFail e]) ∧
    (∀ env' fuel' n', attemptsGuarded (execRetryTrace env' n' fuel').2 = true) := by
  constructor
  · simp [execRetryTrace, hstat]
  · intro env' fuel' n'
    exact execRetry_attemptsGuarded env' fuel' n'

/-- Witness for C4: the executable vanishes after three failed
attempts. -/
theorem execRetry_stat_fail_stops_witness :
    execRetryTrace (fun _ => ⟨some "no such file", none, false, false⟩) 3 5
      = (some (.statFailed "no such file"), [.statFail "no such file"]) :=
  (execRetry_stat_fail_stops (fun _ => ⟨some "no such file", none, false, false⟩) 3 4
    "no such file" rfl).1

/-- `execRetry` can only return `nil` when some attempt exited zero,
only return a stat error when some stat actually failed with it, and
only return `ctx.Err()` when cancellation was observed at one of the two
`select` statements: there is no attempt-count-based exit. -/
theorem execRetry_exit_cause (env : Nat → AttemptEnv) :
    ∀ fuel n r, (execRetryTrace env n fuel).1 = some r →
      (r = .success ∧ ∃ k, n ≤ k ∧ (env k).statErr = none ∧ (env k).execResult = none) ∨
      (∃ e, r = .statFailed e ∧ ∃ k, n ≤ k ∧ (env k).statErr = some e) ∨
      (r = .cancelled ∧ ∃ k, n ≤ k ∧ (env k).statErr = none ∧
        ((env k).ctxDoneAfterExec = true ∨ (env k).ctxDoneDuringWait = true)) := by
  intro fuel
  induction fuel with
  | zero => intro n r h; simp [execRetryTrace] at h
  | succ fuel ih =>
    intro n r h
    rcases hs : (env n).statErr with _ | e
    · rcases he : (env n).execResult with _ | err
      · simp [execRetryTrace, hs, he] at h
        exact Or.inl ⟨h.symm, n, le_refl n, hs, he⟩
      · rcases ha : (env n).ctxDoneAfterExec
        · rcases hw : (env n).ctxDoneDuringWait
          · simp [execRetryTrace, hs, he, ha, hw] at h
            rcases ih (n + 1) r h with h1 | h2 | h3
            · exact Or.inl ⟨h1.1, by
                obtain ⟨k, hk, hk1, hk2⟩ := h1.2
                exact ⟨k, by omega, hk1, hk2⟩⟩
            · refine Or.inr (Or.inl ?_)
              obtain ⟨e, he', k, hk, hk1⟩ := h2
              exact ⟨e, he', k, by omega, hk1⟩
            · refine Or.inr (Or.inr ?_)
              obtain ⟨hr, k, hk, hk1, hk2⟩ := h3
              exact ⟨hr, k, by omega, hk1, hk2⟩
          · simp [execRetryTrace, hs, he, ha, hw] at h
            exact Or.inr (Or.inr ⟨h.symm, n, le_refl n, hs, Or.inr hw⟩)
        · simp [execRetryTrace, hs, he, ha] at h
          exact Or.inr (Or.inr ⟨h.symm, n, le_refl n, hs, Or.inl ha⟩)
    · simp [execRetryTrace, hs] at h
      exact Or.inr (Or.inl ⟨e, h.symm, n, le_refl n, hs⟩)

/-- C9: the retry loop has no attempt-count-based exit.  First, at every
attempt index `n` — i.e. after any number of prior failed attempts — a
failed attempt with a successful stat and no observed cancellation is
always followed by the backoff wait and then the next attempt's
iteration.  Second, the loop returns only for a zero exit, a stat
failure, or an observed cancellation, each witnessed by its actual cause
in the environment. -/
theorem execRetry_no_ceiling (env : Nat → AttemptEnv) (n fuel : Nat) (err : ExecOnceResult)
    (hstat : (env n).statErr = none) (hexec : (env n).execResult = some err)
    (hafter : (env n).ctxDoneAfterExec = false) (hwait : (env n).ctxDoneDuringWait = false) :
    execRetryTrace env n (fuel + 1)
      = ((execRetryTrace env (n + 1) fuel).1,
         .statOk :: .execAttempt (some err) :: .retryLog (waitFor err) :: .backoffWaited ::
           (execRetryTrace env (n + 1) fuel).2) ∧
    (∀ env' fuel' n' r, (execRetryTrace env' n' fuel').1 = some r →
      (r = .success ∧ ∃ k, n' ≤ k ∧ (env' k).statErr = none ∧ (env' k).execResult = none) ∨
      (∃ e, r = .statFailed e ∧ ∃ k, n' ≤ k ∧ (env' k).statErr = some e) ∨
      (r = .cancelled ∧ ∃ k, n' ≤ k ∧ (env' k).statErr = none ∧
        ((env' k).ctxDoneAfterExec = true ∨ (env' k).ctxDoneDuringWait = true))) := by
  constructor
  · simp [execRetryTrace, hstat, hexec, hafter, hwait]
  · intro env' fuel' n' r h
    exact execRetry_exit_cause env' fuel' n' r h

/-- Witness for C9: after a failed attempt the loop proceeds to the next
iteration. -/
theorem execRetry_no_ceiling_witness :
    execRetryTrace (fun _ => ⟨none, some (.execFailed "exit status 1"), false, false⟩) 0 2
      = (none,
         [.statOk, .execAttempt (some (.execFailed "exit status 1")), .retryLog 10,
          .backoffWaited,
          .statOk, .execAttempt (some (.execFailed "exit status 1")), .retryLog 10,
          .backoffWaited]) := by
  have h := (execRetry_no_ceiling
    (fun _ => ⟨none, some (.execFailed "exit status 1"), false, false⟩) 0 1
    (.execFailed "exit status 1") rfl rfl rfl rfl).1
  rw [h]
  decide

/-- C6: for an executable whose base name contains the unlock marker,
a `locked` oracle verdict makes the attempt fail with `screenLockedErr`
before any spawn (no `spawned` action in the trace); a `not locked`
verdict lets the attempt spawn the child, with only a warning logged
when the oracle had failed. -/
theorem execOnce_lock_gate (env : ExecEnv) (exePath : String)
    (hmark : listContains (filepathBase exePath.data) needsUnlockStr.data = true) :
    ((checkIfLocked env.lockEnv).1.1 = true →
      execOnce env exePath = (.screenLocked, [.oracleQueried]) ∧
      ∀ p, ExecEv.spawned p ∉ (execOnce env exePath).2) ∧
    ((checkIfLocked env.lockEnv).1.1 = false →
      ExecEv.spawned exePath ∈ (execOnce env exePath).2 ∧
      ∀ e, (checkIfLocked env.lockEnv).1.2 = some e →
        ExecEv.warnLogged ("failed to determine if screen is locked - " ++ e)
          ∈ (execOnce env exePath).2) := by
  constructor
  · intro hl
    constructor
    · simp [execOnce, hmark, hl]
    · intro p
      simp [execOnce, hmark, hl]
  · intro hnl
    rcases hw : (checkIfLocked env.lockEnv).1.2 with _ | werr
    · constructor
      · rcases hr : env.runResult with _ | msg <;>
          simp [execOnce, hmark, hnl, hw, hr]
      · intro e he
        simp [hw] at he
    · constructor
      · rcases hr : env.runResult with _ | msg <;>
          simp [execOnce, hmark, hnl, hw, hr]
      · intro e he
        obtain rfl : werr = e := by simpa using he
        rcases hr : env.runResult with _ | msg <;>
          simp [execOnce, hmark, hnl, hw, hr]

/-- Witness for C6: with both helpers succeeding and reporting locked,
the gated executable is refused before any spawn. -/
theorem execOnce_lock_gate_witness :
    execOnce ⟨⟨.ok "x CGSSessionScreenIsLocked x", .ok "true\n"⟩, none⟩ "/d/a-on-unlock"
      = (.screenLocked, [.oracleQueried]) :=
  ((execOnce_lock_gate ⟨⟨.ok "x CGSSessionScreenIsLocked x", .ok "true\n"⟩, none⟩
    "/d/a-on-unlock" (by decide)).1 (by decide)).1

/-- C1: on a resume event with a previous generation (every event after
the first successful one), `onEvent` calls `stopChildrenFn` before it
launches any `execRetry` goroutine of the new generation. -/
theorem onEvent_cancel_before_launch (st : CtlState) (infos : List DirEntry) (p : Nat)
    (hprev : st.stopChildrenFn = some p) :
    cancelBeforeLaunches (onEvent st (.ok infos)).2 = true := by
  simp [onEvent, hprev, cancelBeforeLaunches, isLaunch]

/-- Witness for C1 at a concrete state and listing. -/
theorem onEvent_cancel_before_launch_witness :
    cancelBeforeLaunches
      (onEvent ⟨"/d", some 0, 1⟩ (.ok [⟨"a", false⟩, ⟨"b", false⟩])).2 = true :=
  onEvent_cancel_before_launch ⟨"/d", some 0, 1⟩ [⟨"a", false⟩, ⟨"b", false⟩] 0 rfl

/-- Counterexample to C2 as stated: at a concrete state with a previous
generation and one listed executable, the full `onEvent` trace shows the
directory listing completing at position 0 while the unique cancellation
request sits at position 1 — the listing completes strictly before the
previous generation's cancellation is requested. -/
theorem onEvent_listing_first_cex :
    ((onEvent ⟨"/d", some 0, 1⟩ (.ok [⟨"a", false⟩])).2
        = [.readDirOkDone [⟨"a", false⟩], .cancelPrev, .newGen 1, .launchRun 1 "/d/a"]) ∧
    ((onEvent ⟨"/d", some 0, 1⟩ (.ok [⟨"a", false⟩])).2.get? 0
        = some (.readDirOkDone [⟨"a", false⟩])) ∧
    ((onEvent ⟨"/d", some 0, 1⟩ (.ok [⟨"a", false⟩])).2.get? 1 = some .cancelPrev) ∧
    ((onEvent ⟨"/d", some 0, 1⟩ (.ok [⟨"a", false⟩])).2.count .cancelPrev = 1) := by
  decide

/-- C2 (amended): on every resume event with a previous generation, the
first observable action is the successful completion of the directory
listing, after which the previous generation's cancellation is requested
before any new run is launched. -/
theorem onEvent_listing_then_cancel (st : CtlState) (infos : List DirEntry) (p : Nat)
    (hprev : st.stopChildrenFn = some p) :
    listingThenCancel (onEvent st (.ok infos)).2 = true := by
  simp [onEvent, hprev, listingThenCancel, cancelBeforeLaunches]

/-- Witness for the amended C2 at a concrete state and listing. -/
theorem onEvent_listing_then_cancel_witness :
    listingThenCancel (onEvent ⟨"/d", some 0, 1⟩ (.ok [⟨"a", false⟩])).2 = true :=
  onEvent_listing_then_cancel ⟨"/d", some 0, 1⟩ [⟨"a", false⟩] 0 rfl

/-- C7: when the directory listing fails, `onEvent` only logs: the state
(including `stopChildrenFn`) is returned unchanged, the previous
generation is not cancelled, and no run is launched. -/
theorem onEvent_listing_error_drops (st : CtlState) (e : String) :
    (onEvent st (.error e)).1 = st ∧
    (onEvent st (.error e)).2
      = [.readDirErrDone e,
         .logMsg ("failed to read executables directory " ++ st.exesDir ++ " - " ++ e)] ∧
    DispatchEv.cancelPrev ∉ (onEvent st (.error e)).2 ∧
    (∀ g p, DispatchEv.launchRun g p ∉ (onEvent st (.error e)).2) := by
  refine ⟨rfl, rfl, ?_, ?_⟩
  · simp [onEvent]
  · intro g p
    simp [onEvent]

/-- Scanning a newline-free prefix that keeps the buffer below the
64 KiB limit only moves it into the accumulator. -/
theorem scanLines_across_line :
    ∀ l : List Char, Char.ofNat 10 ∉ l → ∀ acc rest,
      acc.length + l.length ≤ maxScanTokenSize →
      scanLines acc (l ++ rest) = scanLines (l.reverse ++ acc) rest := by
  intro l
  induction l with
  | nil => intro _ acc rest _; simp
  | cons c l ih =>
    intro hl acc rest hlen
    have hc : c ≠ Char.ofNat 10 := fun h => hl (by simp [h])
    have hl' : Char.ofNat 10 ∉ l := fun h => hl (by simp [h])
    have hacc : ¬ maxScanTokenSize ≤ acc.length := by
      simp only [List.length_cons] at hlen
      omega
    rw [List.cons_append,
      show scanLines acc (c :: (l ++ rest)) = scanLines (c :: acc) (l ++ rest) from by
        simp [scanLines, hc, hacc],
      ih hl' (c :: acc) rest (by simp only [List.length_cons] at hlen ⊢; omega)]
    simp

/-- Scanning a newline-free stream shorter than the limit yields one
final `dropCR`-ed token (nothing when the stream is empty), without
`ErrTooLong`. -/
theorem scanLines_final (tail : List Char) (htail : Char.ofNat 10 ∉ tail)
    (hlen : tail.length < maxScanTokenSize) :
    scanLines [] tail = ((if tail = [] then [] else [dropCR tail]), false) := by
  have h := scanLines_across_line tail htail [] []
    (by simp only [List.length_nil, Nat.zero_add]; omega)
  simp only [List.append_nil] at h
  rw [h]
  cases tail with
  | nil => decide
  | cons c t =>
    have hr : t.length + 1 < maxScanTokenSize := by
      simpa using hlen
    simp [scanLines, Nat.not_le, hr]

/-- Accumulating `maxScanTokenSize` bytes with no newline among them
makes the scanner fail with `ErrTooLong`: no token is produced and the
rest of the stream is discarded. -/
theorem scanLines_too_long :
    ∀ l : List Char, Char.ofNat 10 ∉ l → ∀ acc rest,
      maxScanTokenSize ≤ acc.length + l.length →
      scanLines acc (l ++ rest) = ([], true) := by
  intro l
  induction l with
  | nil =>
    intro _ acc rest hlen
    simp only [List.length_nil, Nat.add_zero] at hlen
    cases rest with
    | nil => simp [scanLines, hlen]
    | cons c r => simp [scanLines, hlen]
  | cons c l ih =>
    intro hl acc rest hlen
    have hc : c ≠ Char.ofNat 10 := fun h => hl (by simp [h])
    have hl' : Char.ofNat 10 ∉ l := fun h => hl (by simp [h])
    by_cases hacc : maxScanTokenSize ≤ acc.length
    · simp [scanLines, hacc]
    · rw [List.cons_append,
        show scanLines acc (c :: (l ++ rest)) = scanLines (c :: acc) (l ++ rest) from by
          simp [scanLines, hc, hacc]]
      exact ih hl' (c :: acc) rest (by simp only [List.length_cons] at hlen ⊢; omega)

/-- The scanner splits a stream of short newline-terminated lines
followed by a short partial tail into exactly those lines plus the
tail, with no `ErrTooLong`. -/
theorem scanLines_encode (ls : List (List Char)) (tail : List Char)
    (hls : ∀ l ∈ ls, Char.ofNat 10 ∉ l ∧ dropCR l = l ∧ l.length < maxScanTokenSize)
    (htail : Char.ofNat 10 ∉ tail) (hlen : tail.length < maxScanTokenSize) :
    scanLines [] (encodeLines ls ++ tail)
      = (ls ++ if tail = [] then [] else [dropCR tail], false) := by
  induction ls with
  | nil => simpa [encodeLines] using scanLines_final tail htail hlen
  | cons l ls ih =>
    have h1 : Char.ofNat 10 ∉ l := (hls l (by simp)).1
    have h2 : dropCR l = l := (hls l (by simp)).2.1
    have h3 : l.length < maxScanTokenSize := (hls l (by simp)).2.2
    have hrest : ∀ x ∈ ls, Char.ofNat 10 ∉ x ∧ dropCR x = x ∧ x.length < maxScanTokenSize :=
      fun x hx => hls x (by simp [hx])
    have henc : encodeLines (l :: ls) ++ tail
        = l ++ (Char.ofNat 10 :: (encodeLines ls ++ tail)) := by
      simp [encodeLines]
    rw [henc, scanLines_across_line l h1 [] _
      (by simp only [List.length_nil, Nat.zero_add]; omega)]
    rw [show scanLines (l.reverse ++ []) (Char.ofNat 10 :: (encodeLines ls ++ tail))
        = (dropCR (l.reverse ++ []).reverse :: (scanLines [] (encodeLines ls ++ tail)).1,
           (scanLines [] (encodeLines ls ++ tail)).2) from by
      simp [scanLines, Nat.not_le, h3]]
    rw [ih hrest]
    simp [h2]

/-- Counterexample to C8 as stated: a child that writes a single
64 KiB line followed by its newline has that line forwarded zero times,
not once — `bufio.Scanner`'s default `MaxScanTokenSize` makes `Scan`
fail with `ErrTooLong`, the reader loop exits, and the log sink
receives nothing at all. -/
theorem exeLogger_long_line_cex :
    exeLoggerOutput "/d/a" (List.replicate maxScanTokenSize 'a' ++ [Char.ofNat 10]) = [] ∧
    (scanLines [] (List.replicate maxScanTokenSize 'a' ++ [Char.ofNat 10])).2 = true := by
  have hmem : Char.ofNat 10 ∉ List.replicate maxScanTokenSize 'a' := by
    intro hm
    exact absurd (List.eq_of_mem_replicate hm) (by decide)
  have h := scanLines_too_long (List.replicate maxScanTokenSize 'a') hmem [] [Char.ofNat 10]
    (by rw [List.length_nil, List.length_replicate, Nat.zero_add])
  constructor
  · unfold exeLoggerOutput
    rw [h]
    rfl
  · rw [h]

/-- C8 (amended): for a child stream made of newline-terminated lines
and an unterminated tail that each stay under the scanner's 64 KiB
maximum token size, every line is forwarded to the log sink exactly
once, in order, tagged with the executable path, and the final partial
tail is also forwarded exactly once (not at all when empty), the reader
loop never hitting `ErrTooLong`. -/
theorem exeLogger_forwards_short_lines (exePath : String) (ls : List (List Char))
    (tail : List Char)
    (hls : ∀ l ∈ ls, Char.ofNat 10 ∉ l ∧ dropCR l = l ∧ l.length < maxScanTokenSize)
    (htail : Char.ofNat 10 ∉ tail) (htcr : dropCR tail = tail)
    (hlen : tail.length < maxScanTokenSize) :
    exeLoggerOutput exePath (encodeLines ls ++ tail)
      = (ls ++ if tail = [] then [] else [tail]).map (fun line => (exePath, line)) ∧
    (scanLines [] (encodeLines ls ++ tail)).2 = false := by
  constructor
  · unfold exeLoggerOutput
    rw [scanLines_encode ls tail hls htail hlen, htcr]
  · rw [scanLines_encode ls tail hls htail hlen]

/-- Witness for the amended C8: two full lines and a trailing partial
line, all far below the 64 KiB limit. -/
theorem exeLogger_forwards_short_lines_witness :
    exeLoggerOutput "/d/a" (encodeLines ["one".data, "two".data] ++ "tail".data)
      = [("/d/a", "one".data), ("/d/a", "two".data), ("/d/a", "tail".data)] := by
  rw [(exeLogger_forwards_short_lines "/d/a" ["one".data, "two".data] "tail".data
    (by decide) (by decide) (by decide) (by decide)).1]
  decide

end Waked
